import Mathlib

/-!
Shallow embedding of the vastar-performance-connectors client core, translated from
`src/sdk-typescript` (runtime-client / errors / types) and `src/sdk-golang/client.go`,
together with proofs about the correlation table, the frame codec, the request
envelope builder, the transport selection and the error classifier.
-/

namespace Vastar

/-! PROTOCOL_CONSTANTS, from the TypeScript SDK types module. -/

def FRAME_LENGTH_SIZE : Nat := 4

def MESSAGE_TYPE_SIZE : Nat := 1

def MAX_PAYLOAD_SIZE : Nat := 10 * 1024 * 1024

def DEFAULT_TIMEOUT_MS : Nat := 60000

/-- MessageType.ExecuteRequest = 0 (TypeScript enum). -/
def MessageType.ExecuteRequest : Nat := 0

/-- MessageType.ExecuteResponse = 1 (TypeScript enum). -/
def MessageType.ExecuteResponse : Nat := 1

/-- ErrorClass enum: Success = 0, Transient = 1, Permanent = 2, RateLimited = 3,
Timeout = 4, InvalidRequest = 5. -/
inductive ErrorClass where
  | Success
  | Transient
  | Permanent
  | RateLimited
  | Timeout
  | InvalidRequest
deriving DecidableEq

/-- ConnectorException (TypeScript `errors.ts`): message, errorClass and the failing
requestId. -/
structure ConnectorException where
  message : String
  errorClass : ErrorClass
  requestId : Nat
deriving DecidableEq

/-- ConnectorException.isRetryable, translated from `errors.ts` lines 25-31. -/
def ConnectorException.isRetryable (e : ConnectorException) : Bool :=
  e.errorClass = ErrorClass.Transient ||
  e.errorClass = ErrorClass.RateLimited ||
  e.errorClass = ErrorClass.Timeout

/-- ConnectorError (Go `client.go`). -/
structure ConnectorError where
  Message : String
  ErrorClass2 : ErrorClass
  RequestID : Nat
deriving DecidableEq

/-- ConnectorError.IsRetryable, translated from `client.go` lines 84-88. -/
def ConnectorError.IsRetryable (e : ConnectorError) : Bool :=
  e.ErrorClass2 = ErrorClass.Transient ||
  e.ErrorClass2 = ErrorClass.RateLimited ||
  e.ErrorClass2 = ErrorClass.Timeout

/-! JavaScript truthiness helpers.  `a || b` treats the empty string, `0`,
`undefined` and `null` as falsy; the TypeScript client uses it pervasively for
defaulting. -/

/-- JavaScript `a || b` for an optional string (empty string is falsy). -/
def jsOr (a : Option String) (b : String) : String :=
  match a with
  | some s => if s = "" then b else s
  | none => b

/-- JavaScript `a || b` for an optional number (`0` is falsy). -/
def jsOrNat (a : Option Nat) (b : Nat) : Nat :=
  match a with
  | some n => if n = 0 then b else n
  | none => b

/-- JavaScript truthiness test on an optional string field (`if (x) ...`). -/
def jsTruthy (a : Option String) : Option String :=
  match a with
  | some s => if s = "" then none else some s
  | none => none

/-! Byte-level helpers.  Bytes are modelled as natural numbers; the writers produce
values `< 256` and the readers mirror `Buffer.readUInt32BE`. -/

/-- Buffer.writeUInt32BE: four big-endian bytes of `n` (for `n < 2^32`). -/
def writeUInt32BE (n : Nat) : List Nat :=
  [n / 16777216 % 256, n / 65536 % 256, n / 256 % 256, n % 256]

/-- Buffer.readUInt32BE at offset 0; only used behind a `length ≥ 4` guard, as in
`handleData`. -/
def readUInt32BE (b : List Nat) : Nat :=
  b.getD 0 0 * 16777216 + b.getD 1 0 * 65536 + b.getD 2 0 * 256 + b.getD 3 0

/-- RuntimeClient.sendFrame, translated from `runtime-client.ts` lines 201-238: one
contiguous buffer `[length: 4 bytes BE][messageType: 1 byte][payload]` where
`length = MESSAGE_TYPE_SIZE + payload.length`. -/
def sendFrame (messageType : Nat) (payload : List Nat) : List Nat :=
  writeUInt32BE (MESSAGE_TYPE_SIZE + payload.length) ++ messageType :: payload

/-! The decoded ExecuteResponse envelope.  The FlatBuffers accessors of the generated
`ExecuteResponse` class are opaque to this layer; a response decoder
`List Nat → ExecuteResponse` is threaded through the model as a parameter, standing
for `ExecuteResponse.getRootAsExecuteResponse`. -/

structure ExecuteResponse where
  requestId : Nat
  errorClass : ErrorClass
  errorMessage : Option String
  payload : Option (List Nat)
  durationUs : Nat
deriving DecidableEq

/-- The JSON object produced by `JSON.parse` on a response payload, as consumed by
`processFrame` (duck-typed fields `status_code` / `statusCode` / `headers` / `body`).
`JSON.parse` itself is threaded through as a parameter `List Nat → Option ParsedHTTP`;
`none` stands for a parse exception. -/
structure ParsedHTTP where
  status_code : Option Nat
  statusCode : Option Nat
  headers : Option (List (String × String))
  body : Option String
deriving DecidableEq

/-- HTTPResponse as delivered to the caller by `processFrame`'s resolve path. -/
structure HTTPResponse where
  requestId : Nat
  statusCode : Nat
  headers : List (String × String)
  body : String
  durationUs : Nat
  errorClass : ErrorClass
deriving DecidableEq

/-- A caller-facing completion: a resolve or a reject of one pending request's
promise. -/
inductive Outcome where
  | resolved (resp : HTTPResponse)
  | rejected (e : ConnectorException)
deriving DecidableEq

/-- The request id whose promise a completion settles. -/
def Outcome.requestId : Outcome → Nat
  | .resolved r => r.requestId
  | .rejected e => e.requestId

/-! RuntimeClient state.  `pendingRequests : Map<number, PendingRequest>` is modelled
by its key list: an entry carries only the resolve/reject callbacks of its caller
(represented by the id itself, completions being logged per id) and an active
deadline timer.  Every removal path in the source (`processFrame`, `handleError`,
`handleClose`) calls `clearTimeout` on the removed entry, and the timeout callback
itself fires only while not cleared, so a deadline timer is active exactly while its
entry is in the map.  `completions` is the chronological log of caller-facing
resolutions and rejections.  `dispatched` logs every frame handed to `processFrame`.
`crashed` records the `RangeError` that `frameData.readUInt8(0)` would throw on an
empty frame body. -/
structure ClientState where
  socket : Bool
  requestIdSeq : Nat
  pending : List Nat
  completions : List Outcome
  receiveBuffer : List Nat
  dispatched : List (List Nat)
  crashed : Bool
deriving DecidableEq

/-- Map.set on the key list (re-inserting an existing key keeps the list). -/
def mapSet (m : List Nat) (k : Nat) : List Nat :=
  if k ∈ m then m else m ++ [k]

/-- Map.delete on the key list. -/
def mapDelete (m : List Nat) (k : Nat) : List Nat :=
  m.filter (fun x => x ≠ k)

/-- Request ids of the completions delivered so far, in order. -/
def completionIds (s : ClientState) : List Nat :=
  s.completions.map Outcome.requestId

/-- RuntimeClient state right after the constructor (`runtime-client.ts` lines
51-71): no socket,`requestIdSeq` seeded from `Date.now()`, no pending requests. -/
def initState (seed : Nat) : ClientState :=
  { socket := false
    requestIdSeq := seed
    pending := []
    completions := []
    receiveBuffer := []
    dispatched := []
    crashed := false }

/-- RuntimeClient.processFrame, translated from `runtime-client.ts` lines 279-345.
`dec` stands for the generated FlatBuffers response accessors, `parse` for
`JSON.parse` on the payload bytes. -/
def processFrame (dec : List Nat → ExecuteResponse) (parse : List Nat → Option ParsedHTTP)
    (frameData : List Nat) (s : ClientState) : ClientState :=
  let s0 := { s with dispatched := s.dispatched ++ [frameData] }
  match frameData with
  | [] => { s0 with crashed := true }
  | messageType :: payload =>
    if messageType ≠ MessageType.ExecuteResponse then
      s0
    else
      let response := dec payload
      let requestId := response.requestId
      if requestId ∈ s0.pending then
        let s1 := { s0 with pending := mapDelete s0.pending requestId }
        if response.errorClass ≠ ErrorClass.Success then
          { s1 with completions := s1.completions ++
              [Outcome.rejected
                { message := jsOr response.errorMessage "Unknown error"
                  errorClass := response.errorClass
                  requestId := requestId }] }
        else
          match response.payload with
          | none =>
            { s1 with completions := s1.completions ++
                [Outcome.rejected
                  { message := "Empty response payload"
                    errorClass := ErrorClass.Permanent
                    requestId := requestId }] }
          | some respBytes =>
            match parse respBytes with
            | some httpResponse =>
              { s1 with completions := s1.completions ++
                  [Outcome.resolved
                    { requestId := requestId
                      statusCode := jsOrNat httpResponse.status_code
                        (jsOrNat httpResponse.statusCode 0)
                      headers := httpResponse.headers.getD []
                      body := jsOr httpResponse.body ""
                      durationUs := response.durationUs
                      errorClass := ErrorClass.Success }] }
            | none =>
              { s1 with completions := s1.completions ++
                  [Outcome.rejected
                    { message := "Failed to parse response"
                      errorClass := ErrorClass.Permanent
                      requestId := requestId }] }
      else
        s0

/-- The caller-facing completion that `processFrame` delivers when a response frame
correlates to a pending request: the exact resolve/reject value of lines 303-344,
abstracted from the state.  `processFrame_hit` below proves that `processFrame`
appends exactly this outcome. -/
def responseOutcome (dec : List Nat → ExecuteResponse) (parse : List Nat → Option ParsedHTTP)
    (payload : List Nat) : Outcome :=
  let response := dec payload
  let requestId := response.requestId
  if response.errorClass ≠ ErrorClass.Success then
    Outcome.rejected
      { message := jsOr response.errorMessage "Unknown error"
        errorClass := response.errorClass
        requestId := requestId }
  else
    match response.payload with
    | none =>
      Outcome.rejected
        { message := "Empty response payload", errorClass := ErrorClass.Permanent
          requestId := requestId }
    | some respBytes =>
      match parse respBytes with
      | some httpResponse =>
        Outcome.resolved
          { requestId := requestId
            statusCode := jsOrNat httpResponse.status_code (jsOrNat httpResponse.statusCode 0)
            headers := httpResponse.headers.getD []
            body := jsOr httpResponse.body ""
            durationUs := response.durationUs
            errorClass := ErrorClass.Success }
      | none =>
        Outcome.rejected
          { message := "Failed to parse response", errorClass := ErrorClass.Permanent
            requestId := requestId }

/-- RuntimeClient.handleError, translated from `runtime-client.ts` lines 366-376:
rejects every pending request with a Transient ConnectorException carrying its id,
clears the map (and thereby the deadline timers).  It does not touch the socket nor
the receive buffer. -/
def handleError (msg : String) (s : ClientState) : ClientState :=
  { s with
    completions := s.completions ++ s.pending.map (fun requestId =>
      Outcome.rejected
        { message := msg, errorClass := ErrorClass.Transient, requestId := requestId })
    pending := [] }

/-- RuntimeClient.handleClose, translated from `runtime-client.ts` lines 381-394:
drops the socket and rejects every pending request with a Transient
ConnectorException. -/
def handleClose (s : ClientState) : ClientState :=
  { s with
    socket := false
    completions := s.completions ++ s.pending.map (fun requestId =>
      Outcome.rejected
        { message := "Connection closed", errorClass := ErrorClass.Transient
          requestId := requestId })
    pending := [] }

/-- The deadline timer installed by `waitForResponse` (lines 352-357) fires.  A
cleared timer never fires, and every removal of a pending entry clears its timer, so
the callback can only run while the entry is still registered; the callback deletes
the entry and rejects with a Timeout-classified error. -/
def timerFire (requestId : Nat) (s : ClientState) : ClientState :=
  if requestId ∈ s.pending then
    { s with
      pending := mapDelete s.pending requestId
      completions := s.completions ++
        [Outcome.rejected
          { message := "Request timeout", errorClass := ErrorClass.Timeout
            requestId := requestId }] }
  else s

/-- RuntimeClient.waitForResponse, registration part (line 359): stores the pending
entry (with its fresh deadline timer) in the correlation map. -/
def waitForResponse (requestId : Nat) (s : ClientState) : ClientState :=
  { s with pending := mapSet s.pending requestId }

/-- The while loop of `handleData` (lines 248-273), with the accumulated buffer
threaded explicitly (the source keeps it in `this.receiveBuffer`; no code in the
loop body reads the field, so it is written back on every exit path).  Fuel is the
initial buffer length, an upper bound on the number of iterations: each iteration
consumes at least `FRAME_LENGTH_SIZE` bytes. -/
def drainGo (dec : List Nat → ExecuteResponse) (parse : List Nat → Option ParsedHTTP) :
    Nat → List Nat → ClientState → ClientState
  | 0, buf, s => { s with receiveBuffer := buf }
  | fuel + 1, buf, s =>
    if FRAME_LENGTH_SIZE ≤ buf.length then
      let frameLength := readUInt32BE buf
      if MAX_PAYLOAD_SIZE < frameLength then
        handleError ("Invalid frame length: " ++ toString frameLength)
          { s with receiveBuffer := buf }
      else
        let totalFrameSize := FRAME_LENGTH_SIZE + frameLength
        if buf.length < totalFrameSize then
          { s with receiveBuffer := buf }
        else
          let frameData := (buf.drop FRAME_LENGTH_SIZE).take frameLength
          let s2 := processFrame dec parse frameData s
          if s2.crashed then
            { s2 with receiveBuffer := buf.drop totalFrameSize }
          else
            drainGo dec parse fuel (buf.drop totalFrameSize) s2
    else { s with receiveBuffer := buf }

/-- The frame-reassembly loop run to quiescence on a buffer. -/
def drainFrames (dec : List Nat → ExecuteResponse) (parse : List Nat → Option ParsedHTTP)
    (buf : List Nat) (s : ClientState) : ClientState :=
  drainGo dec parse buf.length buf s

/-- RuntimeClient.handleData (lines 245-274): append the chunk to the accumulation
buffer, then decode as many complete frames as are buffered. -/
def handleData (dec : List Nat → ExecuteResponse) (parse : List Nat → Option ParsedHTTP)
    (data : List Nat) (s : ClientState) : ClientState :=
  drainFrames dec parse (s.receiveBuffer ++ data) s

/-- Feeding a sequence of socket data events. -/
def feedChunks (dec : List Nat → ExecuteResponse) (parse : List Nat → Option ParsedHTTP)
    (chunks : List (List Nat)) (s : ClientState) : ClientState :=
  chunks.foldl (fun s c => handleData dec parse c s) s

/-- Processing a list of already-extracted frames through `processFrame`. -/
def processAll (dec : List Nat → ExecuteResponse) (parse : List Nat → Option ParsedHTTP)
    (frames : List (Nat × List Nat)) (s : ClientState) : ClientState :=
  frames.foldl (fun s f => processFrame dec parse (f.1 :: f.2) s) s

/-- Concatenated wire bytes of a list of (messageType, payload) frames. -/
def encodeFrames (frames : List (Nat × List Nat)) : List Nat :=
  (frames.map (fun f => sendFrame f.1 f.2)).flatten

/-! Event-level semantics of one client.  Events are the macrotasks of the Node
event loop relevant to the correlation table: a call to `executeHTTP` (which bumps
`requestIdSeq`, sends the frame and registers the pending entry), a socket data
event, a deadline-timer callback, a socket error and a socket close. -/

inductive Event where
  | execute (timeoutMs : Nat)
  | data (chunk : List Nat)
  | timeout (requestId : Nat)
  | socketError (msg : String)
  | socketClose

/-- One event step of the client. -/
def step (dec : List Nat → ExecuteResponse) (parse : List Nat → Option ParsedHTTP)
    (s : ClientState) : Event → ClientState
  | .execute _ =>
    let requestId := s.requestIdSeq + 1
    waitForResponse requestId { s with requestIdSeq := requestId }
  | .data chunk => handleData dec parse chunk s
  | .timeout requestId => timerFire requestId s
  | .socketError msg => handleError msg s
  | .socketClose => handleClose s

/-- Running a sequence of events from a state. -/
def run (dec : List Nat → ExecuteResponse) (parse : List Nat → Option ParsedHTTP)
    (s : ClientState) (evs : List Event) : ClientState :=
  evs.foldl (step dec parse) s

/-! Request envelope builder, from `executeHTTP` (`runtime-client.ts` lines
117-196) and the constructor (lines 51-71). -/

/-- RuntimeClientConfig as passed by the user (all fields optional). -/
structure RuntimeClientConfigIn where
  tenantId : Option String
  workspaceId : Option String
  timeoutMs : Option Nat
  useTcp : Option Bool
deriving DecidableEq

/-- The `Required<RuntimeClientConfig>` computed by the constructor. -/
structure ResolvedConfig where
  tenantId : String
  workspaceId : String
  timeoutMs : Nat
  useTcp : Bool
deriving DecidableEq

/-- Constructor defaulting (`runtime-client.ts` lines 52-68); `envUseTcp` stands for
`process.env.VASTAR_USE_TCP === 'true'`. -/
def mkConfig (c : RuntimeClientConfigIn) (envUseTcp : Bool) : ResolvedConfig :=
  { tenantId := jsOr c.tenantId "default"
    workspaceId := jsOr c.workspaceId ""
    timeoutMs := jsOrNat c.timeoutMs DEFAULT_TIMEOUT_MS
    useTcp := c.useTcp.getD false || envUseTcp }

/-- HTTPRequestConfig (TypeScript types). -/
structure HTTPRequestConfig where
  method : String
  url : String
  headers : Option (List (String × String))
  body : Option String
  timeoutMs : Option Nat
  tenantId : Option String
  workspaceId : Option String
  traceId : Option String
deriving DecidableEq

/-- The connector-specific JSON payload built by `executeHTTP` (lines 129-143):
`headers` is included iff provided, `body` iff truthy. -/
structure HTTPPayload where
  method : String
  url : String
  headers : Option (List (String × String))
  body : Option String
deriving DecidableEq

/-- The ExecuteRequest FlatBuffers table as populated by `executeHTTP` (lines
148-186); an `Option` field is `none` exactly when the corresponding
`add...` call is skipped, i.e. the field is absent from the envelope. -/
structure ExecuteRequestEnvelope where
  requestId : Nat
  tenantId : String
  workspaceId : Option String
  traceId : Option String
  connectorName : String
  operation : String
  deadlineAtMs : Nat
  payload : HTTPPayload
deriving DecidableEq

/-- RuntimeClient.executeHTTP, envelope-building part (lines 122-186): per-call
defaulting of tenant/workspace/timeout via JavaScript `||`, absolute deadline
`now + timeoutMs`, optional fields added only when truthy, constant connector name
and operation. -/
def executeHTTP (cfg : ResolvedConfig) (now : Nat) (requestId : Nat)
    (request : HTTPRequestConfig) : ExecuteRequestEnvelope :=
  let tenantId := jsOr request.tenantId cfg.tenantId
  let workspaceId := jsOr request.workspaceId cfg.workspaceId
  let timeoutMs := jsOrNat request.timeoutMs cfg.timeoutMs
  { requestId := requestId
    tenantId := tenantId
    workspaceId := jsTruthy (some workspaceId)
    traceId := jsTruthy request.traceId
    connectorName := "http"
    operation := "request"
    deadlineAtMs := now + timeoutMs
    payload :=
      { method := request.method
        url := request.url
        headers := request.headers
        body := jsTruthy request.body } }

/-! Transport selection. -/

inductive Transport where
  | unixSocket
  | tcp
deriving DecidableEq

/-- RuntimeClient.connect (TypeScript, lines 76-112), as the ordered list of
transports on which `socket.connect` is invoked: nothing when already connected,
otherwise exactly one of TCP (when forced) or the Unix domain socket.  The `error`
handler installed by `connect` performs no second `socket.connect`, so the attempt
list does not depend on the outcome of the attempt. -/
def connect (alreadyConnected : Bool) (cfg : ResolvedConfig) : List Transport :=
  if alreadyConnected then []
  else if cfg.useTcp then [Transport.tcp]
  else [Transport.unixSocket]

/-- RuntimeClient.connect (Go, `client.go` lines 113-127), as the ordered list of
dial attempts: TCP alone when `VASTAR_USE_TCP` is set; otherwise the Unix socket
first on linux/darwin, with a TCP dial after a failed Unix dial; TCP alone on other
platforms. -/
def goConnect (envUseTcp : Bool) (platform : String) (unixSucceeds : Bool) :
    List Transport :=
  if envUseTcp then [Transport.tcp]
  else if platform = "linux" ∨ platform = "darwin" then
    if unixSucceeds then [Transport.unixSocket] else [Transport.unixSocket, Transport.tcp]
  else [Transport.tcp]

/-! Program-order trace of `executeHTTP` for the register-versus-write ordering. -/

inductive CallAction where
  | registerPending (requestId : Nat)
  | writeFrame (messageType : Nat) (payload : List Nat)
deriving DecidableEq

/-- CallAction.isWrite. -/
def CallAction.isWrite : CallAction → Bool
  | .writeFrame _ _ => true
  | _ => false

/-- CallAction.isRegister. -/
def CallAction.isRegister (requestId : Nat) : CallAction → Bool
  | .registerPending id => id == requestId
  | _ => false

/-- The correlation-relevant actions of one `executeHTTP` call in program order
(`runtime-client.ts` lines 191-196): line 192 `await this.sendFrame(...)` writes the
frame to the transport, then line 195 `this.waitForResponse(requestId, ...)` runs
and its promise executor registers the pending entry (line 359). -/
def executeHTTPTrace (requestId : Nat) (requestBytes : List Nat) : List CallAction :=
  [CallAction.writeFrame MessageType.ExecuteRequest requestBytes,
   CallAction.registerPending requestId]

/-- The pending entry is registered strictly before any frame write: some register
action for the id occurs before the first write action. -/
def registerBeforeWrite (requestId : Nat) (tr : List CallAction) : Bool :=
  (tr.takeWhile (fun a => !a.isWrite)).any (CallAction.isRegister requestId)

/-- A frame write occurs strictly before the registration, and the registration
does occur. -/
def writeBeforeRegister (requestId : Nat) (tr : List CallAction) : Bool :=
  (tr.takeWhile (fun a => !(a.isRegister requestId))).any CallAction.isWrite &&
  tr.any (CallAction.isRegister requestId)

/-! Concrete oracles used to evaluate the model in closed statements. -/

/-- A concrete response decoder: the first payload byte is the request id, the
response is Success and echoes the payload. -/
def decStub : List Nat → ExecuteResponse :=
  fun payload =>
    { requestId := payload.headD 0
      errorClass := ErrorClass.Success
      errorMessage := none
      payload := some payload
      durationUs := 0 }

/-- A concrete JSON parser that always fails. -/
def parseStub : List Nat → Option ParsedHTTP :=
  fun _ => none

/-- A concrete JSON parser that always succeeds with a fixed object. -/
def parseStubOk : List Nat → Option ParsedHTTP :=
  fun _ => some { status_code := some 200, statusCode := none, headers := none, body := some "ok" }

/-- A concrete connected-client state with two pending requests, used to evaluate
the model in closed statements. -/
def sampleState : ClientState :=
  { socket := true
    requestIdSeq := 9
    pending := [5, 7]
    completions := []
    receiveBuffer := []
    dispatched := []
    crashed := false }

/-- A buffer on which the reassembly loop stalls waiting for more data, relative to
the frames still to arrive: the empty buffer when no frames remain, otherwise a
proper leading slice of the next frame's encoding. -/
def stalls (buf : List Nat) (todo : List (Nat × List Nat)) : Prop :=
  match todo with
  | [] => buf = []
  | f :: _ => buf.length < 5 + f.2.length ∧ ∃ t, buf ++ t = sendFrame f.1 f.2

/-- Correlation-table invariant maintained by every client event: the pending keys
are distinct and bounded by `requestIdSeq`, the ids of delivered completions are
distinct and bounded by `requestIdSeq`, and no id is simultaneously pending and
already completed. -/
def Inv (s : ClientState) : Prop :=
  s.pending.Nodup ∧
  (∀ id ∈ s.pending, id ≤ s.requestIdSeq) ∧
  (completionIds s).Nodup ∧
  (∀ id ∈ completionIds s, id ≤ s.requestIdSeq) ∧
  (∀ id ∈ s.pending, id ∉ completionIds s)

/-! Byte-level lemmas. -/

theorem length_writeUInt32BE (n : Nat) : (writeUInt32BE n).length = 4 := rfl

theorem length_sendFrame (t : Nat) (p : List Nat) :
    (sendFrame t p).length = 5 + p.length := by
  simp [sendFrame, writeUInt32BE, MESSAGE_TYPE_SIZE]
  omega

theorem readUInt32BE_writeUInt32BE (n : Nat) (rest : List Nat) (h : n < 4294967296) :
    readUInt32BE (writeUInt32BE n ++ rest) = n := by
  simp [readUInt32BE, writeUInt32BE]
  omega

theorem readUInt32BE_append (b extra : List Nat) (h : 4 ≤ b.length) :
    readUInt32BE (b ++ extra) = readUInt32BE b := by
  unfold readUInt32BE
  rw [List.getD_append _ _ _ _ (by omega), List.getD_append _ _ _ _ (by omega),
    List.getD_append _ _ _ _ (by omega), List.getD_append _ _ _ _ (by omega)]

theorem readUInt32BE_sendFrame (t : Nat) (p rest : List Nat)
    (h : 1 + p.length < 4294967296) :
    readUInt32BE (sendFrame t p ++ rest) = 1 + p.length := by
  have : sendFrame t p ++ rest = writeUInt32BE (1 + p.length) ++ (t :: (p ++ rest)) := by
    simp [sendFrame, MESSAGE_TYPE_SIZE, Nat.add_comm]
  rw [this, readUInt32BE_writeUInt32BE _ _ h]

/-! Characterization of `processFrame` by the shape of the frame. -/

theorem processFrame_nilFrame (dec : List Nat → ExecuteResponse)
    (parse : List Nat → Option ParsedHTTP) (s : ClientState) :
    processFrame dec parse [] s =
      { s with dispatched := s.dispatched ++ [[]], crashed := true } := rfl

theorem processFrame_badType (dec : List Nat → ExecuteResponse)
    (parse : List Nat → Option ParsedHTTP) (t : Nat) (payload : List Nat)
    (s : ClientState) (h : t ≠ 1) :
    processFrame dec parse (t :: payload) s =
      { s with dispatched := s.dispatched ++ [t :: payload] } := by
  simp [processFrame, MessageType.ExecuteResponse, h]

theorem processFrame_miss (dec : List Nat → ExecuteResponse)
    (parse : List Nat → Option ParsedHTTP) (payload : List Nat) (s : ClientState)
    (h : (dec payload).requestId ∉ s.pending) :
    processFrame dec parse (1 :: payload) s =
      { s with dispatched := s.dispatched ++ [1 :: payload] } := by
  simp [processFrame, MessageType.ExecuteResponse, h]

theorem processFrame_hit (dec : List Nat → ExecuteResponse)
    (parse : List Nat → Option ParsedHTTP) (payload : List Nat) (s : ClientState)
    (h : (dec payload).requestId ∈ s.pending) :
    processFrame dec parse (1 :: payload) s =
      { s with dispatched := s.dispatched ++ [1 :: payload],
               pending := mapDelete s.pending ((dec payload).requestId),
               completions := s.completions ++ [responseOutcome dec parse payload] } := by
  by_cases he : (dec payload).errorClass = ErrorClass.Success
  · cases hp : (dec payload).payload with
    | none => simp [processFrame, responseOutcome, MessageType.ExecuteResponse, h, he, hp]
    | some b =>
      cases hb : parse b with
      | none => simp [processFrame, responseOutcome, MessageType.ExecuteResponse, h, he, hp, hb]
      | some q => simp [processFrame, responseOutcome, MessageType.ExecuteResponse, h, he, hp, hb]
  · simp [processFrame, responseOutcome, MessageType.ExecuteResponse, h, he]

theorem responseOutcome_requestId (dec : List Nat → ExecuteResponse)
    (parse : List Nat → Option ParsedHTTP) (payload : List Nat) :
    (responseOutcome dec parse payload).requestId = (dec payload).requestId := by
  unfold responseOutcome
  by_cases he : (dec payload).errorClass = ErrorClass.Success
  · cases hp : (dec payload).payload with
    | none => simp [he, hp, Outcome.requestId]
    | some b =>
      cases hb : parse b with
      | none => simp [he, hp, hb, Outcome.requestId]
      | some q => simp [he, hp, hb, Outcome.requestId]
  · simp [he, Outcome.requestId]

theorem processFrame_dispatched (dec : List Nat → ExecuteResponse)
    (parse : List Nat → Option ParsedHTTP) (fd : List Nat) (s : ClientState) :
    (processFrame dec parse fd s).dispatched = s.dispatched ++ [fd] := by
  match fd with
  | [] => rw [processFrame_nilFrame]
  | t :: payload =>
    by_cases ht : t = 1
    · subst ht
      by_cases h : (dec payload).requestId ∈ s.pending
      · rw [processFrame_hit dec parse payload s h]
      · rw [processFrame_miss dec parse payload s h]
    · rw [processFrame_badType dec parse t payload s ht]

theorem processFrame_requestIdSeq (dec : List Nat → ExecuteResponse)
    (parse : List Nat → Option ParsedHTTP) (fd : List Nat) (s : ClientState) :
    (processFrame dec parse fd s).requestIdSeq = s.requestIdSeq := by
  match fd with
  | [] => rw [processFrame_nilFrame]
  | t :: payload =>
    by_cases ht : t = 1
    · subst ht
      by_cases h : (dec payload).requestId ∈ s.pending
      · rw [processFrame_hit dec parse payload s h]
      · rw [processFrame_miss dec parse payload s h]
    · rw [processFrame_badType dec parse t payload s ht]

theorem processFrame_socket (dec : List Nat → ExecuteResponse)
    (parse : List Nat → Option ParsedHTTP) (fd : List Nat) (s : ClientState) :
    (processFrame dec parse fd s).socket = s.socket := by
  match fd with
  | [] => rw [processFrame_nilFrame]
  | t :: payload =>
    by_cases ht : t = 1
    · subst ht
      by_cases h : (dec payload).requestId ∈ s.pending
      · rw [processFrame_hit dec parse payload s h]
      · rw [processFrame_miss dec parse payload s h]
    · rw [processFrame_badType dec parse t payload s ht]

theorem processFrame_receiveBuffer (dec : List Nat → ExecuteResponse)
    (parse : List Nat → Option ParsedHTTP) (fd : List Nat) (s : ClientState) :
    (processFrame dec parse fd s).receiveBuffer = s.receiveBuffer := by
  match fd with
  | [] => rw [processFrame_nilFrame]
  | t :: payload =>
    by_cases ht : t = 1
    · subst ht
      by_cases h : (dec payload).requestId ∈ s.pending
      · rw [processFrame_hit dec parse payload s h]
      · rw [processFrame_miss dec parse payload s h]
    · rw [processFrame_badType dec parse t payload s ht]

theorem processFrame_crashed (dec : List Nat → ExecuteResponse)
    (parse : List Nat → Option ParsedHTTP) (t : Nat) (payload : List Nat)
    (s : ClientState) :
    (processFrame dec parse (t :: payload) s).crashed = s.crashed := by
  by_cases ht : t = 1
  · subst ht
    by_cases h : (dec payload).requestId ∈ s.pending
    · rw [processFrame_hit dec parse payload s h]
    · rw [processFrame_miss dec parse payload s h]
  · rw [processFrame_badType dec parse t payload s ht]

theorem processFrame_setBuffer (dec : List Nat → ExecuteResponse)
    (parse : List Nat → Option ParsedHTTP) (fd : List Nat) (s : ClientState)
    (b : List Nat) :
    processFrame dec parse fd { s with receiveBuffer := b } =
      { processFrame dec parse fd s with receiveBuffer := b } := by
  match fd with
  | [] => rw [processFrame_nilFrame, processFrame_nilFrame]
  | t :: payload =>
    by_cases ht : t = 1
    · subst ht
      by_cases h : (dec payload).requestId ∈ s.pending
      · rw [processFrame_hit dec parse payload s h,
          processFrame_hit dec parse payload { s with receiveBuffer := b } h]
      · rw [processFrame_miss dec parse payload s h,
          processFrame_miss dec parse payload { s with receiveBuffer := b } h]
    · rw [processFrame_badType dec parse t payload s ht,
        processFrame_badType dec parse t payload { s with receiveBuffer := b } ht]

/-! Fuel adequacy for the frame-reassembly loop. -/

theorem drainGo_nilBuffer (dec : List Nat → ExecuteResponse)
    (parse : List Nat → Option ParsedHTTP) (fuel : Nat) (s : ClientState) :
    drainGo dec parse fuel [] s = { s with receiveBuffer := [] } := by
  cases fuel <;> simp [drainGo, FRAME_LENGTH_SIZE]

theorem drainGo_succ (dec : List Nat → ExecuteResponse)
    (parse : List Nat → Option ParsedHTTP) :
    ∀ (fuel : Nat) (buf : List Nat) (s : ClientState), buf.length ≤ fuel →
      drainGo dec parse (fuel + 1) buf s = drainGo dec parse fuel buf s := by
  intro fuel
  induction fuel with
  | zero =>
    intro buf s hlen
    have hb : buf = [] := List.length_eq_zero.mp (Nat.le_zero.mp hlen)
    subst hb
    rw [drainGo_nilBuffer, drainGo_nilBuffer]
  | succ n ih =>
    intro buf s hlen
    simp only [drainGo]
    by_cases h4 : FRAME_LENGTH_SIZE ≤ buf.length
    · simp only [if_pos h4]
      by_cases hmax : MAX_PAYLOAD_SIZE < readUInt32BE buf
      · simp only [if_pos hmax]
      · simp only [if_neg hmax]
        by_cases hwait : buf.length < FRAME_LENGTH_SIZE + readUInt32BE buf
        · simp only [if_pos hwait]
        · simp only [if_neg hwait]
          by_cases hcr :
            (processFrame dec parse
              ((buf.drop FRAME_LENGTH_SIZE).take (readUInt32BE buf)) s).crashed = true
          · simp only [if_pos hcr]
          · simp only [if_neg hcr]
            refine ih _ _ ?_
            have h4n : (4 : Nat) ≤ buf.length := h4
            simp only [List.length_drop, show FRAME_LENGTH_SIZE = 4 from rfl]
            omega
    · simp only [if_neg h4]

theorem drainGo_ofLe (dec : List Nat → ExecuteResponse)
    (parse : List Nat → Option ParsedHTTP) (k : Nat) :
    ∀ (buf : List Nat) (s : ClientState),
      drainGo dec parse (buf.length + k) buf s = drainFrames dec parse buf s := by
  induction k with
  | zero => intro buf s; rfl
  | succ n ih =>
    intro buf s
    rw [show buf.length + (n + 1) = buf.length + n + 1 by omega,
      drainGo_succ dec parse _ _ _ (Nat.le_add_right _ _), ih]

theorem drainGo_fuel (dec : List Nat → ExecuteResponse)
    (parse : List Nat → Option ParsedHTTP) (fuel : Nat) (buf : List Nat)
    (s : ClientState) (h : buf.length ≤ fuel) :
    drainGo dec parse fuel buf s = drainFrames dec parse buf s := by
  obtain ⟨k, rfl⟩ := Nat.exists_eq_add_of_le h
  exact drainGo_ofLe dec parse k buf s

/-! One-step behaviour of the reassembly loop. -/

theorem drainFrames_short (dec : List Nat → ExecuteResponse)
    (parse : List Nat → Option ParsedHTTP) (buf : List Nat) (s : ClientState)
    (h : buf.length < 4) :
    drainFrames dec parse buf s = { s with receiveBuffer := buf } := by
  unfold drainFrames
  cases hl : buf.length with
  | zero =>
    have hb : buf = [] := List.length_eq_zero.mp hl
    subst hb
    exact drainGo_nilBuffer dec parse 0 s
  | succ n =>
    simp only [drainGo]
    rw [if_neg (by rw [show FRAME_LENGTH_SIZE = 4 from rfl]; omega)]

theorem drainFrames_error (dec : List Nat → ExecuteResponse)
    (parse : List Nat → Option ParsedHTTP) (buf : List Nat) (s : ClientState)
    (h4 : 4 ≤ buf.length) (hm : MAX_PAYLOAD_SIZE < readUInt32BE buf) :
    drainFrames dec parse buf s =
      handleError ("Invalid frame length: " ++ toString (readUInt32BE buf))
        { s with receiveBuffer := buf } := by
  unfold drainFrames
  cases hl : buf.length with
  | zero => omega
  | succ n =>
    simp only [drainGo]
    rw [if_pos (by rw [show FRAME_LENGTH_SIZE = 4 from rfl]; omega), if_pos hm]

theorem drainFrames_stall (dec : List Nat → ExecuteResponse)
    (parse : List Nat → Option ParsedHTTP) (buf : List Nat) (s : ClientState)
    (h4 : 4 ≤ buf.length) (hm : readUInt32BE buf ≤ MAX_PAYLOAD_SIZE)
    (hw : buf.length < 4 + readUInt32BE buf) :
    drainFrames dec parse buf s = { s with receiveBuffer := buf } := by
  unfold drainFrames
  cases hl : buf.length with
  | zero => omega
  | succ n =>
    simp only [drainGo]
    rw [if_pos (by rw [show FRAME_LENGTH_SIZE = 4 from rfl]; omega),
      if_neg (by omega), if_pos (by rw [show FRAME_LENGTH_SIZE = 4 from rfl]; omega)]

theorem drainFrames_frameStep (dec : List Nat → ExecuteResponse)
    (parse : List Nat → Option ParsedHTTP) (t : Nat) (p rest : List Nat)
    (s : ClientState) (hok : 1 + p.length ≤ MAX_PAYLOAD_SIZE) (hcr : s.crashed = false) :
    drainFrames dec parse (sendFrame t p ++ rest) s =
      drainFrames dec parse rest (processFrame dec parse (t :: p) s) := by
  have hlt : 1 + p.length < 4294967296 := by
    have : MAX_PAYLOAD_SIZE = 10485760 := rfl
    omega
  have hread : readUInt32BE (sendFrame t p ++ rest) = 1 + p.length :=
    readUInt32BE_sendFrame t p rest hlt
  have hlen : (sendFrame t p ++ rest).length = 5 + p.length + rest.length := by
    rw [List.length_append, length_sendFrame]
  have hdecomp : sendFrame t p ++ rest = writeUInt32BE (1 + p.length) ++ (t :: (p ++ rest)) := by
    simp [sendFrame, MESSAGE_TYPE_SIZE, Nat.add_comm]
  have hdrop4 : (sendFrame t p ++ rest).drop 4 = t :: (p ++ rest) := by
    rw [hdecomp, show (4 : Nat) = (writeUInt32BE (1 + p.length)).length from rfl,
      List.drop_left]
  have htake : ((sendFrame t p ++ rest).drop 4).take (1 + p.length) = t :: p := by
    rw [hdrop4, Nat.add_comm 1 p.length, List.take_succ_cons, List.take_left]
  have hdropAll : (sendFrame t p ++ rest).drop (4 + (1 + p.length)) = rest := by
    rw [show 4 + (1 + p.length) = (sendFrame t p).length by rw [length_sendFrame]; omega,
      List.drop_left]
  unfold drainFrames
  cases hl : (sendFrame t p ++ rest).length with
  | zero => rw [hlen] at hl; omega
  | succ n =>
    simp only [drainGo]
    rw [if_pos (by rw [show FRAME_LENGTH_SIZE = 4 from rfl]; omega)]
    rw [if_neg (by rw [hread]; omega)]
    rw [if_neg (by
      rw [show FRAME_LENGTH_SIZE = 4 from rfl, hread, hlen]
      omega)]
    rw [show FRAME_LENGTH_SIZE = 4 from rfl, hread, htake, hdropAll]
    rw [if_neg (by
      rw [processFrame_crashed dec parse t p s, hcr]
      simp)]
    exact drainGo_fuel dec parse n rest _ (by rw [hlen] at hl; omega)

/-! Frame-stream decomposition: feeding any chunking of an encoded frame stream
decodes exactly the original frames, in order. -/

theorem encodeFrames_nil : encodeFrames [] = [] := rfl

theorem encodeFrames_cons (f : Nat × List Nat) (rest : List (Nat × List Nat)) :
    encodeFrames (f :: rest) = sendFrame f.1 f.2 ++ encodeFrames rest := by
  simp [encodeFrames]

theorem encodeFrames_append (l1 l2 : List (Nat × List Nat)) :
    encodeFrames (l1 ++ l2) = encodeFrames l1 ++ encodeFrames l2 := by
  simp [encodeFrames]

theorem processAll_cons (dec : List Nat → ExecuteResponse)
    (parse : List Nat → Option ParsedHTTP) (f : Nat × List Nat)
    (frames : List (Nat × List Nat)) (s : ClientState) :
    processAll dec parse (f :: frames) s =
      processAll dec parse frames (processFrame dec parse (f.1 :: f.2) s) := rfl

theorem processAll_append (dec : List Nat → ExecuteResponse)
    (parse : List Nat → Option ParsedHTTP) (l1 l2 : List (Nat × List Nat))
    (s : ClientState) :
    processAll dec parse (l1 ++ l2) s = processAll dec parse l2 (processAll dec parse l1 s) := by
  simp [processAll, List.foldl_append]

theorem processAll_dispatched (dec : List Nat → ExecuteResponse)
    (parse : List Nat → Option ParsedHTTP) (frames : List (Nat × List Nat)) :
    ∀ s : ClientState, (processAll dec parse frames s).dispatched =
      s.dispatched ++ frames.map (fun f => f.1 :: f.2) := by
  induction frames with
  | nil => intro s; simp [processAll]
  | cons f rest ih =>
    intro s
    rw [processAll_cons, ih, processFrame_dispatched]
    simp

theorem processAll_crashed (dec : List Nat → ExecuteResponse)
    (parse : List Nat → Option ParsedHTTP) (frames : List (Nat × List Nat)) :
    ∀ s : ClientState, (processAll dec parse frames s).crashed = s.crashed := by
  induction frames with
  | nil => intro s; rfl
  | cons f rest ih =>
    intro s
    rw [processAll_cons, ih, processFrame_crashed]

theorem processAll_setBuffer (dec : List Nat → ExecuteResponse)
    (parse : List Nat → Option ParsedHTTP) (frames : List (Nat × List Nat)) :
    ∀ (s : ClientState) (b : List Nat),
      processAll dec parse frames { s with receiveBuffer := b } =
        { processAll dec parse frames s with receiveBuffer := b } := by
  induction frames with
  | nil => intro s b; rfl
  | cons f rest ih =>
    intro s b
    rw [processAll_cons, processFrame_setBuffer, ih, processAll_cons]

theorem drainFrames_split (dec : List Nat → ExecuteResponse)
    (parse : List Nat → Option ParsedHTTP) :
    ∀ (todo : List (Nat × List Nat)),
      (∀ f ∈ todo, 1 + f.2.length ≤ MAX_PAYLOAD_SIZE) →
      ∀ (pre : List Nat) (s : ClientState), s.crashed = false →
        (∃ t, pre ++ t = encodeFrames todo) →
        ∃ done todo2 buf2,
          todo = done ++ todo2 ∧
          pre = encodeFrames done ++ buf2 ∧
          stalls buf2 todo2 ∧
          drainFrames dec parse pre s =
            { processAll dec parse done s with receiveBuffer := buf2 } := by
  intro todo
  induction todo with
  | nil =>
    intro hok pre s hcr hpre
    obtain ⟨t, ht⟩ := hpre
    have hpre0 : pre = [] := by
      have hl := congrArg List.length ht
      simp [encodeFrames_nil] at hl
      exact hl.1
    subst hpre0
    exact ⟨[], [], [], rfl, rfl, rfl, by
      rw [drainFrames_short dec parse [] s (by simp)]
      rfl⟩
  | cons f rest ih =>
    intro hok pre s hcr hpre
    obtain ⟨t, ht⟩ := hpre
    have hokf : 1 + f.2.length ≤ MAX_PAYLOAD_SIZE := hok f (by simp)
    have hfull : pre ++ t = sendFrame f.1 f.2 ++ encodeFrames rest := by
      rw [ht, encodeFrames_cons]
    by_cases hshort : pre.length < 5 + f.2.length
    · -- pre is a proper slice of the first frame: the loop stalls on it
      have hpretake : pre = (sendFrame f.1 f.2).take pre.length := by
        have h1 : pre = (pre ++ t).take pre.length := (List.take_left pre t).symm
        rw [hfull, List.take_append_of_le_length (by rw [length_sendFrame]; omega)] at h1
        exact h1
      have hprext : ∃ t2, pre ++ t2 = sendFrame f.1 f.2 := by
        refine ⟨(sendFrame f.1 f.2).drop pre.length, ?_⟩
        calc pre ++ (sendFrame f.1 f.2).drop pre.length
            = (sendFrame f.1 f.2).take pre.length ++ (sendFrame f.1 f.2).drop pre.length := by
              rw [← hpretake]
          _ = sendFrame f.1 f.2 := List.take_append_drop _ _
      refine ⟨[], f :: rest, pre, rfl, by rw [encodeFrames_nil]; rfl, ⟨hshort, hprext⟩, ?_⟩
      by_cases h4 : 4 ≤ pre.length
      · have hread : readUInt32BE pre = 1 + f.2.length := by
          calc readUInt32BE pre = readUInt32BE (pre ++ t) :=
                (readUInt32BE_append pre t h4).symm
            _ = 1 + f.2.length := by
                rw [hfull]
                exact readUInt32BE_sendFrame f.1 f.2 _ (by
                  have hmx : MAX_PAYLOAD_SIZE = 10485760 := rfl
                  omega)
        rw [drainFrames_stall dec parse pre s h4 (by rw [hread]; exact hokf)
          (by rw [hread]; omega)]
        rfl
      · rw [drainFrames_short dec parse pre s (by omega)]
        rfl
    · -- the first frame is complete at the front of pre
      have hsplit : pre = sendFrame f.1 f.2 ++ pre.drop (sendFrame f.1 f.2).length := by
        have h1 : pre.take (sendFrame f.1 f.2).length = sendFrame f.1 f.2 := by
          have h2 : (pre ++ t).take (sendFrame f.1 f.2).length = sendFrame f.1 f.2 := by
            rw [hfull, List.take_left]
          rw [List.take_append_of_le_length (by rw [length_sendFrame]; omega)] at h2
          exact h2
        conv_lhs => rw [← List.take_append_drop (sendFrame f.1 f.2).length pre]
        rw [h1]
      obtain ⟨pre2, rfl⟩ : ∃ pre2, pre = sendFrame f.1 f.2 ++ pre2 :=
        ⟨pre.drop (sendFrame f.1 f.2).length, hsplit⟩
      have hpre2enc : ∃ t2, pre2 ++ t2 = encodeFrames rest := by
        refine ⟨t, ?_⟩
        rw [List.append_assoc] at hfull
        exact List.append_cancel_left hfull
      have hcr2 : (processFrame dec parse (f.1 :: f.2) s).crashed = false := by
        rw [processFrame_crashed]; exact hcr
      obtain ⟨done2, todo2, buf2, hteq, hpeq, hstalls, hdrain⟩ :=
        ih (fun g hg => hok g (by simp [hg])) pre2
          (processFrame dec parse (f.1 :: f.2) s) hcr2 hpre2enc
      refine ⟨f :: done2, todo2, buf2, by rw [hteq]; rfl, ?_, hstalls, ?_⟩
      · rw [encodeFrames_cons, List.append_assoc, ← hpeq]
      · rw [drainFrames_frameStep dec parse f.1 f.2 pre2 s hokf hcr, hdrain,
          processAll_cons]

theorem handleData_eq (dec : List Nat → ExecuteResponse)
    (parse : List Nat → Option ParsedHTTP) (data : List Nat) (s : ClientState) :
    handleData dec parse data s = drainFrames dec parse (s.receiveBuffer ++ data) s := rfl

theorem feedChunks_nil (dec : List Nat → ExecuteResponse)
    (parse : List Nat → Option ParsedHTTP) (s : ClientState) :
    feedChunks dec parse [] s = s := rfl

theorem feedChunks_cons (dec : List Nat → ExecuteResponse)
    (parse : List Nat → Option ParsedHTTP) (c : List Nat) (cs : List (List Nat))
    (s : ClientState) :
    feedChunks dec parse (c :: cs) s = feedChunks dec parse cs (handleData dec parse c s) := rfl

theorem feedChunks_encoded (dec : List Nat → ExecuteResponse)
    (parse : List Nat → Option ParsedHTTP) :
    ∀ (chunks : List (List Nat)) (todo : List (Nat × List Nat)) (s : ClientState),
      (∀ f ∈ todo, 1 + f.2.length ≤ MAX_PAYLOAD_SIZE) →
      s.crashed = false →
      s.receiveBuffer ++ chunks.flatten = encodeFrames todo →
      stalls s.receiveBuffer todo →
      feedChunks dec parse chunks s =
        { processAll dec parse todo s with receiveBuffer := [] } := by
  intro chunks
  induction chunks with
  | nil =>
    intro todo s hok hcr hjoin hstall
    cases todo with
    | nil =>
      have hb : s.receiveBuffer = [] := by simpa [encodeFrames_nil] using hjoin
      show s = { processAll dec parse [] s with receiveBuffer := [] }
      cases s
      simp only [processAll, List.foldl_nil]
      simp_all
    | cons f rest =>
      exfalso
      obtain ⟨hlt, t2, ht2⟩ := hstall
      have hl := congrArg List.length hjoin
      rw [encodeFrames_cons] at hl
      simp [length_sendFrame] at hl
      omega
  | cons c cs ih =>
    intro todo s hok hcr hjoin hstall
    have hpre : ∃ t, (s.receiveBuffer ++ c) ++ t = encodeFrames todo := by
      refine ⟨cs.flatten, ?_⟩
      rw [List.append_assoc]
      simpa [List.flatten_cons] using hjoin
    obtain ⟨done, todo2, buf2, hteq, hpeq, hstalls2, hdrain⟩ :=
      drainFrames_split dec parse todo hok (s.receiveBuffer ++ c) s hcr hpre
    rw [feedChunks_cons,
      show handleData dec parse c s = drainFrames dec parse (s.receiveBuffer ++ c) s from rfl,
      hdrain]
    have hok2 : ∀ f ∈ todo2, 1 + f.2.length ≤ MAX_PAYLOAD_SIZE := by
      intro f hf
      exact hok f (by rw [hteq]; exact List.mem_append_right done hf)
    have hcr2 : ({ processAll dec parse done s with receiveBuffer := buf2 }).crashed = false := by
      show (processAll dec parse done s).crashed = false
      rw [processAll_crashed]; exact hcr
    have hjoin2 : buf2 ++ cs.flatten = encodeFrames todo2 := by
      have h1 : (encodeFrames done ++ buf2) ++ cs.flatten =
          encodeFrames done ++ encodeFrames todo2 := by
        rw [← hpeq, ← encodeFrames_append, ← hteq]
        rw [List.append_assoc]
        simpa [List.flatten_cons] using hjoin
      rw [List.append_assoc] at h1
      exact List.append_cancel_left h1
    rw [ih todo2 { processAll dec parse done s with receiveBuffer := buf2 }
      hok2 hcr2 hjoin2 hstalls2]
    rw [processAll_setBuffer, ← processAll_append, ← hteq]

/-! Correlation-table invariant preservation. -/

theorem mem_mapDelete (m : List Nat) (k x : Nat) :
    x ∈ mapDelete m k ↔ x ∈ m ∧ x ≠ k := by
  simp [mapDelete]

theorem mem_mapSet (m : List Nat) (k x : Nat) :
    x ∈ mapSet m k ↔ (x ∈ m ∨ x = k) := by
  unfold mapSet
  by_cases h : k ∈ m
  · rw [if_pos h]
    constructor
    · exact Or.inl
    · rintro (hx | rfl)
      · exact hx
      · exact h
  · rw [if_neg h]
    simp [List.mem_append]

theorem nodup_mapDelete (m : List Nat) (k : Nat) (h : m.Nodup) :
    (mapDelete m k).Nodup := h.filter _

theorem nodup_mapSet (m : List Nat) (k : Nat) (h : m.Nodup) :
    (mapSet m k).Nodup := by
  unfold mapSet
  by_cases hk : k ∈ m
  · rw [if_pos hk]; exact h
  · rw [if_neg hk]
    simp [List.nodup_append, h, hk]

theorem completionIds_appendOne (s : ClientState) (P : List Nat) (C : List Outcome)
    (D : List (List Nat)) (o : Outcome) :
    completionIds { s with pending := P, completions := C ++ [o], dispatched := D } =
      C.map Outcome.requestId ++ [o.requestId] := by
  simp [completionIds]

theorem Inv_initState (seed : Nat) : Inv (initState seed) := by
  simp [Inv, initState, completionIds]

theorem processFrame_Inv (dec : List Nat → ExecuteResponse)
    (parse : List Nat → Option ParsedHTTP) (fd : List Nat) (s : ClientState)
    (h : Inv s) : Inv (processFrame dec parse fd s) := by
  obtain ⟨h1, h2, h3, h4, h5⟩ := h
  match fd with
  | [] => rw [processFrame_nilFrame]; exact ⟨h1, h2, h3, h4, h5⟩
  | t :: payload =>
    by_cases ht : t = 1
    · subst ht
      by_cases hm : (dec payload).requestId ∈ s.pending
      · rw [processFrame_hit dec parse payload s hm]
        refine ⟨nodup_mapDelete _ _ h1, ?_, ?_, ?_, ?_⟩
        · intro id hid
          exact h2 id ((mem_mapDelete _ _ _).mp hid).1
        · show (completionIds _).Nodup
          rw [completionIds_appendOne, responseOutcome_requestId]
          simp only [List.nodup_append, List.nodup_singleton]
          exact ⟨h3, trivial, by
            intro a ha hb
            simp at hb
            subst hb
            exact h5 _ hm ha⟩
        · intro id hid
          rw [completionIds_appendOne, responseOutcome_requestId] at hid
          rcases List.mem_append.mp hid with hid | hid
          · exact h4 id hid
          · simp at hid
            subst hid
            exact h2 _ hm
        · intro id hid
          rw [completionIds_appendOne, responseOutcome_requestId]
          obtain ⟨hid1, hid2⟩ := (mem_mapDelete _ _ _).mp hid
          intro hc
          rcases List.mem_append.mp hc with hc | hc
          · exact h5 id hid1 hc
          · simp at hc
            exact hid2 hc
      · rw [processFrame_miss dec parse payload s hm]
        exact ⟨h1, h2, h3, h4, h5⟩
    · rw [processFrame_badType dec parse t payload s ht]
      exact ⟨h1, h2, h3, h4, h5⟩

theorem handleError_Inv (msg : String) (s : ClientState) (h : Inv s) :
    Inv (handleError msg s) := by
  obtain ⟨h1, h2, h3, h4, h5⟩ := h
  refine ⟨List.nodup_nil, by simp [handleError], ?_, ?_, by simp [handleError]⟩
  · show (completionIds _).Nodup
    simp only [handleError, completionIds, List.map_append, List.map_map]
    rw [List.nodup_append]
    refine ⟨h3, ?_, ?_⟩
    · have : (Outcome.requestId ∘ fun requestId =>
        Outcome.rejected
          { message := msg, errorClass := ErrorClass.Transient, requestId := requestId }) = id := by
        funext x
        rfl
      rw [this, List.map_id]
      exact h1
    · intro a ha hb
      simp only [List.mem_map, Function.comp] at hb
      obtain ⟨x, hx, rfl⟩ := hb
      exact h5 x hx ha
  · intro id hid
    simp only [handleError, completionIds, List.map_append, List.map_map,
      List.mem_append] at hid
    rcases hid with hid | hid
    · exact h4 id hid
    · simp only [List.mem_map, Function.comp] at hid
      obtain ⟨x, hx, rfl⟩ := hid
      exact h2 x hx

theorem handleClose_Inv (s : ClientState) (h : Inv s) : Inv (handleClose s) := by
  obtain ⟨h1, h2, h3, h4, h5⟩ := h
  refine ⟨List.nodup_nil, by simp [handleClose], ?_, ?_, by simp [handleClose]⟩
  · show (completionIds _).Nodup
    simp only [handleClose, completionIds, List.map_append, List.map_map]
    rw [List.nodup_append]
    refine ⟨h3, ?_, ?_⟩
    · have : (Outcome.requestId ∘ fun requestId =>
        Outcome.rejected
          { message := "Connection closed", errorClass := ErrorClass.Transient
            requestId := requestId }) = id := by
        funext x
        rfl
      rw [this, List.map_id]
      exact h1
    · intro a ha hb
      simp only [List.mem_map, Function.comp] at hb
      obtain ⟨x, hx, rfl⟩ := hb
      exact h5 x hx ha
  · intro id hid
    simp only [handleClose, completionIds, List.map_append, List.map_map,
      List.mem_append] at hid
    rcases hid with hid | hid
    · exact h4 id hid
    · simp only [List.mem_map, Function.comp] at hid
      obtain ⟨x, hx, rfl⟩ := hid
      exact h2 x hx

theorem timerFire_Inv (requestId : Nat) (s : ClientState) (h : Inv s) :
    Inv (timerFire requestId s) := by
  obtain ⟨h1, h2, h3, h4, h5⟩ := h
  unfold timerFire
  by_cases hm : requestId ∈ s.pending
  · rw [if_pos hm]
    refine ⟨nodup_mapDelete _ _ h1, ?_, ?_, ?_, ?_⟩
    · intro id hid
      exact h2 id ((mem_mapDelete _ _ _).mp hid).1
    · show (completionIds _).Nodup
      simp only [completionIds, List.map_append, List.map_cons, List.map_nil]
      rw [List.nodup_append]
      refine ⟨h3, List.nodup_singleton _, ?_⟩
      intro a ha hb
      simp [Outcome.requestId] at hb
      subst hb
      exact h5 _ hm ha
    · intro id hid
      simp only [completionIds, List.map_append, List.mem_append, List.map_cons,
        List.map_nil] at hid
      rcases hid with hid | hid
      · exact h4 id hid
      · simp [Outcome.requestId] at hid
        subst hid
        exact h2 _ hm
    · intro id hid
      obtain ⟨hid1, hid2⟩ := (mem_mapDelete _ _ _).mp hid
      simp only [completionIds, List.map_append, List.mem_append, List.map_cons,
        List.map_nil]
      intro hc
      rcases hc with hc | hc
      · exact h5 id hid1 hc
      · simp [Outcome.requestId] at hc
        exact hid2 hc
  · rw [if_neg hm]
    exact ⟨h1, h2, h3, h4, h5⟩

theorem drainGo_Inv (dec : List Nat → ExecuteResponse)
    (parse : List Nat → Option ParsedHTTP) :
    ∀ (fuel : Nat) (buf : List Nat) (s : ClientState), Inv s →
      Inv (drainGo dec parse fuel buf s) := by
  intro fuel
  induction fuel with
  | zero => intro buf s h; exact h
  | succ n ih =>
    intro buf s h
    simp only [drainGo]
    by_cases h4 : FRAME_LENGTH_SIZE ≤ buf.length
    · simp only [if_pos h4]
      by_cases hmax : MAX_PAYLOAD_SIZE < readUInt32BE buf
      · simp only [if_pos hmax]
        exact handleError_Inv _ _ h
      · simp only [if_neg hmax]
        by_cases hwait : buf.length < FRAME_LENGTH_SIZE + readUInt32BE buf
        · simp only [if_pos hwait]
          exact h
        · simp only [if_neg hwait]
          by_cases hcr :
            (processFrame dec parse
              ((buf.drop FRAME_LENGTH_SIZE).take (readUInt32BE buf)) s).crashed = true
          · simp only [if_pos hcr]
            exact processFrame_Inv dec parse _ s h
          · simp only [if_neg hcr]
            exact ih _ _ (processFrame_Inv dec parse _ s h)
    · simp only [if_neg h4]
      exact h

theorem step_Inv (dec : List Nat → ExecuteResponse)
    (parse : List Nat → Option ParsedHTTP) (s : ClientState) (e : Event)
    (h : Inv s) : Inv (step dec parse s e) := by
  obtain ⟨h1, h2, h3, h4, h5⟩ := h
  cases e with
  | execute timeoutMs =>
    show Inv (waitForResponse (s.requestIdSeq + 1) { s with requestIdSeq := s.requestIdSeq + 1 })
    unfold waitForResponse
    refine ⟨nodup_mapSet _ _ h1, ?_, h3, ?_, ?_⟩
    · intro id hid
      rcases (mem_mapSet _ _ _).mp hid with hid | rfl
      · exact Nat.le_succ_of_le (h2 id hid)
      · exact Nat.le_refl _
    · intro id hid
      exact Nat.le_succ_of_le (h4 id hid)
    · intro id hid
      rcases (mem_mapSet _ _ _).mp hid with hid | rfl
      · exact h5 id hid
      · intro hc
        exact absurd (h4 _ hc) (by omega)
  | data chunk => exact drainGo_Inv dec parse _ _ s ⟨h1, h2, h3, h4, h5⟩
  | timeout requestId => exact timerFire_Inv requestId s ⟨h1, h2, h3, h4, h5⟩
  | socketError msg => exact handleError_Inv msg s ⟨h1, h2, h3, h4, h5⟩
  | socketClose => exact handleClose_Inv s ⟨h1, h2, h3, h4, h5⟩

theorem run_Inv (dec : List Nat → ExecuteResponse)
    (parse : List Nat → Option ParsedHTTP) :
    ∀ (evs : List Event) (s : ClientState), Inv s → Inv (run dec parse s evs) := by
  intro evs
  induction evs with
  | nil => intro s h; exact h
  | cons e rest ih =>
    intro s h
    exact ih (step dec parse s e) (step_Inv dec parse s e h)

/-! Deadline-timer characterization. -/

theorem timerFire_hit (requestId : Nat) (s : ClientState) (h : requestId ∈ s.pending) :
    timerFire requestId s =
      { s with pending := mapDelete s.pending requestId,
               completions := s.completions ++
                 [Outcome.rejected
                   { message := "Request timeout", errorClass := ErrorClass.Timeout,
                     requestId := requestId }] } := by
  simp [timerFire, h]

theorem timerFire_miss (requestId : Nat) (s : ClientState) (h : requestId ∉ s.pending) :
    timerFire requestId s = s := by
  simp [timerFire, h]

/-! Claim theorems. -/

/-- C6 (confirmed): `isRetryable` returns true if and only if the error class is
Transient, RateLimited or Timeout — in both the TypeScript
`ConnectorException.isRetryable` and the Go `ConnectorError.IsRetryable` — and in
particular returns false for Permanent, InvalidRequest and Success; it is a pure
function of the error class. -/
theorem isRetryable_spec :
    ∀ (e : ConnectorException) (g : ConnectorError),
      (e.isRetryable = true ↔
        (e.errorClass = ErrorClass.Transient ∨ e.errorClass = ErrorClass.RateLimited ∨
          e.errorClass = ErrorClass.Timeout)) ∧
      (g.IsRetryable = true ↔
        (g.ErrorClass2 = ErrorClass.Transient ∨ g.ErrorClass2 = ErrorClass.RateLimited ∨
          g.ErrorClass2 = ErrorClass.Timeout)) := by
  intro e g
  constructor
  · simp [ConnectorException.isRetryable, Bool.or_eq_true, decide_eq_true_eq, or_assoc]
  · simp [ConnectorError.IsRetryable, Bool.or_eq_true, decide_eq_true_eq, or_assoc]

/-- C6 witness: a Timeout-classified exception is retryable. -/
theorem isRetryable_spec_check :
    ConnectorException.isRetryable
      { message := "m", errorClass := ErrorClass.Timeout, requestId := 7 } = true :=
  ((isRetryable_spec
      { message := "m", errorClass := ErrorClass.Timeout, requestId := 7 }
      { Message := "m", ErrorClass2 := ErrorClass.Timeout, RequestID := 7 }).1).mpr
    (Or.inr (Or.inr rfl))

/-- C10 (confirmed): every envelope built by `executeHTTP` carries the constant
connector name "http" and operation "request", whatever the configuration and the
per-call request are. -/
theorem connector_operation_constant :
    ∀ (cfg : ResolvedConfig) (now requestId : Nat) (request : HTTPRequestConfig),
      (executeHTTP cfg now requestId request).connectorName = "http" ∧
      (executeHTTP cfg now requestId request).operation = "request" := by
  intro cfg now requestId request
  exact ⟨rfl, rfl⟩

/-- C3 counterexample: `executeHTTP` awaits `sendFrame` (line 192) before
`waitForResponse` registers the pending entry (lines 195 and 359), so on the
concrete call with request id 1 and empty request bytes no registration precedes
the write, refuting register-before-write. -/
theorem register_before_write_refuted :
    ¬ registerBeforeWrite 1 (executeHTTPTrace 1 []) = true := by decide

/-- C3 amended: in every execution of `executeHTTP` the request frame is written
to the transport strictly before the pending entry is registered, and the
registration does occur, immediately afterwards within the same call. -/
theorem write_then_register :
    ∀ (requestId : Nat) (requestBytes : List Nat),
      writeBeforeRegister requestId (executeHTTPTrace requestId requestBytes) = true := by
  intro requestId requestBytes
  simp [writeBeforeRegister, executeHTTPTrace, CallAction.isRegister, CallAction.isWrite,
    List.takeWhile]

/-- C8 counterexample: with the TypeScript client not yet connected and TCP not
forced, `connect` never attempts TCP at all — the attempt list is just the domain
socket — so there is no TCP fallback when the domain-socket connection fails. -/
theorem tcp_fallback_refuted :
    ¬ Transport.tcp ∈
      connect false (mkConfig ⟨none, none, none, none⟩ false) := by decide

/-- C8 amended: `connect` is a no-op when already connected; the TypeScript client
attempts exactly one transport — TCP when forced by flag or environment, otherwise
the domain socket, with no fallback; the Go client forces TCP from the environment,
attempts the domain socket first on linux/darwin falling back to TCP when that dial
fails, and goes straight to TCP on other platforms. -/
theorem transport_selection :
    ∀ (cfg : ResolvedConfig) (platform : String) (unixSucceeds : Bool),
      (connect true cfg = []) ∧
      (cfg.useTcp = true → connect false cfg = [Transport.tcp]) ∧
      (cfg.useTcp = false → connect false cfg = [Transport.unixSocket]) ∧
      (goConnect true platform unixSucceeds = [Transport.tcp]) ∧
      ((platform = "linux" ∨ platform = "darwin") →
        goConnect false platform false = [Transport.unixSocket, Transport.tcp]) ∧
      ((platform = "linux" ∨ platform = "darwin") →
        goConnect false platform true = [Transport.unixSocket]) ∧
      (¬(platform = "linux" ∨ platform = "darwin") →
        goConnect false platform unixSucceeds = [Transport.tcp]) := by
  intro cfg platform unixSucceeds
  refine ⟨rfl, ?_, ?_, rfl, ?_, ?_, ?_⟩
  · intro h; simp [connect, h]
  · intro h; simp [connect, h]
  · intro h; simp [goConnect, h]
  · intro h; simp [goConnect, h]
  · intro h; simp [goConnect, h]

/-- C8 witness: on linux with a failing domain-socket dial and no TCP override, the
Go client attempts the domain socket and then TCP. -/
theorem transport_selection_check :
    goConnect false "linux" false = [Transport.unixSocket, Transport.tcp] :=
  (transport_selection (mkConfig ⟨none, none, none, none⟩ false) "linux" false).2.2.2.2.1
    (Or.inl rfl)

/-- C4 (confirmed): on connection error or close every currently pending request is
completed with a Transient-classified error carrying its request id and the pending
map is left empty; the deadline timers are cancelled (a later timer event is a
no-op), and a subsequent response frame for any request id completes no caller and
leaves the map empty. -/
theorem failAll_totality :
    ∀ (msg : String) (s : ClientState) (dec : List Nat → ExecuteResponse)
      (parse : List Nat → Option ParsedHTTP),
      (handleError msg s).pending = [] ∧
      (∀ id ∈ s.pending,
        Outcome.rejected
          { message := msg, errorClass := ErrorClass.Transient, requestId := id }
          ∈ (handleError msg s).completions) ∧
      (handleClose s).pending = [] ∧
      (∀ id ∈ s.pending,
        Outcome.rejected
          { message := "Connection closed", errorClass := ErrorClass.Transient,
            requestId := id }
          ∈ (handleClose s).completions) ∧
      (∀ id, timerFire id (handleError msg s) = handleError msg s) ∧
      (∀ payload,
        (processFrame dec parse (1 :: payload) (handleError msg s)).completions =
          (handleError msg s).completions ∧
        (processFrame dec parse (1 :: payload) (handleError msg s)).pending = []) := by
  intro msg s dec parse
  refine ⟨rfl, ?_, rfl, ?_, ?_, ?_⟩
  · intro id hid
    exact List.mem_append_right _ (List.mem_map.mpr ⟨id, hid, rfl⟩)
  · intro id hid
    exact List.mem_append_right _ (List.mem_map.mpr ⟨id, hid, rfl⟩)
  · intro id
    apply timerFire_miss
    simp [handleError]
  · intro payload
    have hmiss : (dec payload).requestId ∉ (handleError msg s).pending := by
      simp [handleError]
    rw [processFrame_miss dec parse payload _ hmiss]
    exact ⟨rfl, rfl⟩

/-- C4 witness: failing a connected client with two pending requests rejects
request 5 with a Transient error carrying its id. -/
theorem failAll_totality_check :
    Outcome.rejected
      { message := "boom", errorClass := ErrorClass.Transient, requestId := 5 }
      ∈ (handleError "boom" sampleState).completions :=
  (failAll_totality "boom" sampleState decStub parseStub).2.1 5 (by decide)

/-- C9 (confirmed): a response frame that correlates to a pending request, carries
errorClass Success, and whose payload is absent or fails to parse, completes exactly
that call with a Permanent-classified rejection carrying its request id; every other
pending entry survives. -/
theorem decode_failure_permanent :
    ∀ (dec : List Nat → ExecuteResponse) (parse : List Nat → Option ParsedHTTP)
      (payload : List Nat) (s : ClientState),
      (dec payload).requestId ∈ s.pending →
      (dec payload).errorClass = ErrorClass.Success →
      ((dec payload).payload = none ∨
        (∃ b, (dec payload).payload = some b ∧ parse b = none)) →
      ∃ m, processFrame dec parse (1 :: payload) s =
        { s with dispatched := s.dispatched ++ [1 :: payload],
                 pending := mapDelete s.pending ((dec payload).requestId),
                 completions := s.completions ++
                   [Outcome.rejected
                     { message := m, errorClass := ErrorClass.Permanent,
                       requestId := (dec payload).requestId }] } ∧
        ∀ id ∈ s.pending, id ≠ (dec payload).requestId →
          id ∈ (processFrame dec parse (1 :: payload) s).pending := by
  intro dec parse payload s hmem hsucc hfail
  have hhit := processFrame_hit dec parse payload s hmem
  have houtcome : ∃ m, responseOutcome dec parse payload =
      Outcome.rejected
        { message := m, errorClass := ErrorClass.Permanent,
          requestId := (dec payload).requestId } := by
    unfold responseOutcome
    rcases hfail with hnone | ⟨b, hb, hpb⟩
    · exact ⟨"Empty response payload", by simp [hsucc, hnone]⟩
    · exact ⟨"Failed to parse response", by simp [hsucc, hb, hpb]⟩
  obtain ⟨m, hm⟩ := houtcome
  refine ⟨m, ?_, ?_⟩
  · rw [hhit, hm]
  · intro id hid hne
    rw [hhit]
    show id ∈ mapDelete s.pending _
    exact (mem_mapDelete _ _ _).mpr ⟨hid, hne⟩

/-- C9 witness: with the stub decoder (request id 5, Success, payload echoed) and
the always-failing parser, a frame for pending request 5 is rejected Permanent and
pending request 7 survives. -/
theorem decode_failure_permanent_check :
    ∃ m, processFrame decStub parseStub (1 :: [5]) sampleState =
      { sampleState with
          dispatched := sampleState.dispatched ++ [1 :: [5]],
          pending := mapDelete sampleState.pending ((decStub [5]).requestId),
          completions := sampleState.completions ++
            [Outcome.rejected
              { message := m, errorClass := ErrorClass.Permanent,
                requestId := (decStub [5]).requestId }] } ∧
      ∀ id ∈ sampleState.pending, id ≠ (decStub [5]).requestId →
        id ∈ (processFrame decStub parseStub (1 :: [5]) sampleState).pending :=
  decode_failure_permanent decStub parseStub [5] sampleState (by decide) rfl
    (Or.inr ⟨[5], rfl, rfl⟩)

/-! Behaviour of the decoder once an oversized length prefix sits at the front of
the accumulation buffer: the prefix is never consumed, so every future data event
re-triggers the error path and no frame is ever decoded, while the buffer keeps
growing. -/

theorem feedChunks_poisoned (dec : List Nat → ExecuteResponse)
    (parse : List Nat → Option ParsedHTTP) :
    ∀ (chunks : List (List Nat)) (s : ClientState),
      4 ≤ s.receiveBuffer.length →
      MAX_PAYLOAD_SIZE < readUInt32BE s.receiveBuffer →
      (feedChunks dec parse chunks s).dispatched = s.dispatched ∧
      (feedChunks dec parse chunks s).receiveBuffer = s.receiveBuffer ++ chunks.flatten ∧
      (feedChunks dec parse chunks s).socket = s.socket := by
  intro chunks
  induction chunks with
  | nil =>
    intro s h4 hmax
    exact ⟨rfl, by simp [feedChunks], rfl⟩
  | cons c cs ih =>
    intro s h4 hmax
    rw [feedChunks_cons]
    have h4a : 4 ≤ (s.receiveBuffer ++ c).length := by
      rw [List.length_append]; omega
    have hmaxa : MAX_PAYLOAD_SIZE < readUInt32BE (s.receiveBuffer ++ c) := by
      rw [readUInt32BE_append _ _ h4]; exact hmax
    have hstep : handleData dec parse c s =
        handleError
          ("Invalid frame length: " ++ toString (readUInt32BE (s.receiveBuffer ++ c)))
          { s with receiveBuffer := s.receiveBuffer ++ c } :=
      drainFrames_error dec parse _ s h4a hmaxa
    have hbuf2 : (handleData dec parse c s).receiveBuffer = s.receiveBuffer ++ c := by
      rw [hstep]; rfl
    have hd2 : (handleData dec parse c s).dispatched = s.dispatched := by
      rw [hstep]; rfl
    have hs2 : (handleData dec parse c s).socket = s.socket := by
      rw [hstep]; rfl
    obtain ⟨ihd, ihb, ihs⟩ := ih (handleData dec parse c s)
      (by rw [hbuf2]; exact h4a) (by rw [hbuf2]; exact hmaxa)
    refine ⟨by rw [ihd, hd2], ?_, by rw [ihs, hs2]⟩
    rw [ihb, hbuf2]
    simp [List.append_assoc]

/-- C5 counterexample: feeding a connected client one chunk whose 4-byte prefix
declares MAX_PAYLOAD_SIZE + 1 does not close the socket — `handleError` rejects the
pending requests but the socket stays open, refuting "the socket is closed". -/
theorem oversized_frame_socket_refuted :
    ¬ ((handleData decStub parseStub (writeUInt32BE (MAX_PAYLOAD_SIZE + 1))
        sampleState).socket = false) := by decide

/-- C5 amended: a length prefix above the fixed 10 MiB constant triggers the error
path — every pending request is rejected with a Transient error carrying its id,
the pending map is cleared, and no frame is dispatched by this or any later data
event (the offending prefix is never consumed) — but the socket is not closed, and
data keeps accumulating in the receive buffer. -/
theorem oversized_frame_behavior :
    ∀ (dec : List Nat → ExecuteResponse) (parse : List Nat → Option ParsedHTTP)
      (chunk : List Nat) (s : ClientState),
      4 ≤ (s.receiveBuffer ++ chunk).length →
      MAX_PAYLOAD_SIZE < readUInt32BE (s.receiveBuffer ++ chunk) →
      (handleData dec parse chunk s).pending = [] ∧
      (∀ id ∈ s.pending,
        Outcome.rejected
          { message := "Invalid frame length: " ++
              toString (readUInt32BE (s.receiveBuffer ++ chunk)),
            errorClass := ErrorClass.Transient, requestId := id }
          ∈ (handleData dec parse chunk s).completions) ∧
      (handleData dec parse chunk s).socket = s.socket ∧
      (handleData dec parse chunk s).receiveBuffer = s.receiveBuffer ++ chunk ∧
      (handleData dec parse chunk s).dispatched = s.dispatched ∧
      (∀ chunks2,
        (feedChunks dec parse chunks2 (handleData dec parse chunk s)).dispatched =
          s.dispatched ∧
        (feedChunks dec parse chunks2 (handleData dec parse chunk s)).receiveBuffer =
          (s.receiveBuffer ++ chunk) ++ chunks2.flatten) := by
  intro dec parse chunk s h4 hmax
  have hstep : handleData dec parse chunk s =
      handleError
        ("Invalid frame length: " ++ toString (readUInt32BE (s.receiveBuffer ++ chunk)))
        { s with receiveBuffer := s.receiveBuffer ++ chunk } :=
    drainFrames_error dec parse _ s h4 hmax
  refine ⟨by rw [hstep]; rfl, ?_, by rw [hstep]; rfl, by rw [hstep]; rfl,
    by rw [hstep]; rfl, ?_⟩
  · intro id hid
    rw [hstep]
    exact List.mem_append_right _ (List.mem_map.mpr ⟨id, hid, rfl⟩)
  · intro chunks2
    have h4b : 4 ≤ (handleData dec parse chunk s).receiveBuffer.length := by
      rw [hstep]; exact h4
    have hmaxb : MAX_PAYLOAD_SIZE < readUInt32BE (handleData dec parse chunk s).receiveBuffer := by
      rw [hstep]; exact hmax
    obtain ⟨hd, hb, _⟩ := feedChunks_poisoned dec parse chunks2 _ h4b hmaxb
    constructor
    · rw [hd, hstep]; rfl
    · rw [hb, hstep]
      rfl

/-- C5 witness: the oversized prefix empties the pending map, rejects pending
request 5 as Transient, and leaves the socket in its prior (open) state. -/
theorem oversized_frame_behavior_check :
    (handleData decStub parseStub (writeUInt32BE (MAX_PAYLOAD_SIZE + 1))
      sampleState).pending = [] ∧
    (handleData decStub parseStub (writeUInt32BE (MAX_PAYLOAD_SIZE + 1))
      sampleState).socket = sampleState.socket :=
  ⟨(oversized_frame_behavior decStub parseStub (writeUInt32BE (MAX_PAYLOAD_SIZE + 1))
      sampleState (by decide) (by decide)).1,
   (oversized_frame_behavior decStub parseStub (writeUInt32BE (MAX_PAYLOAD_SIZE + 1))
      sampleState (by decide) (by decide)).2.2.1⟩

/-! JavaScript-defaulting helper lemmas for the envelope builder. -/

theorem jsOr_eq_empty_iff (a : Option String) (b : String) :
    jsOr a b = "" ↔ ((a = none ∨ a = some "") ∧ b = "") := by
  cases a with
  | none => simp [jsOr]
  | some s =>
    by_cases hs : s = ""
    · subst hs; simp [jsOr]
    · simp [jsOr, hs]

theorem jsTruthy_eq_none_iff (a : Option String) :
    jsTruthy a = none ↔ (a = none ∨ a = some "") := by
  cases a with
  | none => simp [jsTruthy]
  | some s =>
    by_cases hs : s = ""
    · subst hs; simp [jsTruthy]
    · simp [jsTruthy, hs]

theorem jsTruthy_ne_someEmpty (a : Option String) : jsTruthy a ≠ some "" := by
  cases a with
  | none => simp [jsTruthy]
  | some s =>
    by_cases hs : s = ""
    · subst hs; simp [jsTruthy]
    · simp [jsTruthy, hs]

/-- C7 counterexample: with a per-call timeout of 0 ms given explicitly, the
JavaScript `||` defaulting treats it as absent and uses the 60000 ms client-level
default, so "deadlineAtMs = now + per-call timeout" fails at now = 100. -/
theorem envelope_timeout_zero_refuted :
    ¬ ((executeHTTP (mkConfig ⟨none, none, none, none⟩ false) 100 1
        { method := "GET", url := "u", headers := none, body := none,
          timeoutMs := some 0, tenantId := none, workspaceId := none,
          traceId := none }).deadlineAtMs = 100 + 0) := by decide

/-- C7 amended: the envelope tenant is the per-call override when given and
non-empty, otherwise the client-config tenant, which is itself never empty (the
constructor falls back to the literal "default"); workspaceId and traceId are
omitted (not encoded as empty strings) exactly when no non-empty value was
supplied; deadlineAtMs is the current time plus the per-call timeout when given and
non-zero, otherwise plus the client-level default. -/
theorem envelope_defaulting :
    ∀ (c : RuntimeClientConfigIn) (envUseTcp : Bool) (now requestId : Nat)
      (request : HTTPRequestConfig),
      ((mkConfig c envUseTcp).tenantId ≠ "") ∧
      (∀ t, request.tenantId = some t → t ≠ "" →
        (executeHTTP (mkConfig c envUseTcp) now requestId request).tenantId = t) ∧
      ((request.tenantId = none ∨ request.tenantId = some "") →
        (executeHTTP (mkConfig c envUseTcp) now requestId request).tenantId =
          (mkConfig c envUseTcp).tenantId) ∧
      (∀ t, request.timeoutMs = some t → t ≠ 0 →
        (executeHTTP (mkConfig c envUseTcp) now requestId request).deadlineAtMs =
          now + t) ∧
      ((request.timeoutMs = none ∨ request.timeoutMs = some 0) →
        (executeHTTP (mkConfig c envUseTcp) now requestId request).deadlineAtMs =
          now + (mkConfig c envUseTcp).timeoutMs) ∧
      ((executeHTTP (mkConfig c envUseTcp) now requestId request).workspaceId ≠
        some "") ∧
      ((executeHTTP (mkConfig c envUseTcp) now requestId request).workspaceId = none ↔
        ((request.workspaceId = none ∨ request.workspaceId = some "") ∧
          (mkConfig c envUseTcp).workspaceId = "")) ∧
      ((executeHTTP (mkConfig c envUseTcp) now requestId request).traceId ≠ some "") ∧
      ((executeHTTP (mkConfig c envUseTcp) now requestId request).traceId = none ↔
        (request.traceId = none ∨ request.traceId = some "")) := by
  intro c envUseTcp now requestId request
  refine ⟨?_, ?_, ?_, ?_, ?_, ?_, ?_, ?_, ?_⟩
  · show jsOr c.tenantId "default" ≠ ""
    intro h
    have := (jsOr_eq_empty_iff c.tenantId "default").mp h
    simp at this
  · intro t ht htne
    show jsOr request.tenantId (mkConfig c envUseTcp).tenantId = t
    simp [jsOr, ht, htne]
  · intro h
    show jsOr request.tenantId (mkConfig c envUseTcp).tenantId =
      (mkConfig c envUseTcp).tenantId
    rcases h with h | h <;> simp [jsOr, h]
  · intro t ht htne
    show now + jsOrNat request.timeoutMs (mkConfig c envUseTcp).timeoutMs = now + t
    simp [jsOrNat, ht, htne]
  · intro h
    show now + jsOrNat request.timeoutMs (mkConfig c envUseTcp).timeoutMs =
      now + (mkConfig c envUseTcp).timeoutMs
    rcases h with h | h <;> simp [jsOrNat, h]
  · show jsTruthy (some (jsOr request.workspaceId (mkConfig c envUseTcp).workspaceId)) ≠
      some ""
    exact jsTruthy_ne_someEmpty _
  · show jsTruthy (some (jsOr request.workspaceId (mkConfig c envUseTcp).workspaceId)) =
      none ↔ _
    rw [jsTruthy_eq_none_iff]
    simp only [Option.some.injEq, false_or, reduceCtorEq]
    exact jsOr_eq_empty_iff request.workspaceId (mkConfig c envUseTcp).workspaceId
  · show jsTruthy request.traceId ≠ some ""
    exact jsTruthy_ne_someEmpty _
  · show jsTruthy request.traceId = none ↔ _
    exact jsTruthy_eq_none_iff request.traceId

/-- C7 witness: a non-empty per-call tenant override is used verbatim, and an
absent per-call timeout yields deadline now + the 60000 ms default. -/
theorem envelope_defaulting_check :
    (executeHTTP (mkConfig ⟨none, none, none, none⟩ false) 100 1
      { method := "GET", url := "u", headers := none, body := none,
        timeoutMs := none, tenantId := some "acme", workspaceId := none,
        traceId := none }).tenantId = "acme" ∧
    (executeHTTP (mkConfig ⟨none, none, none, none⟩ false) 100 1
      { method := "GET", url := "u", headers := none, body := none,
        timeoutMs := none, tenantId := some "acme", workspaceId := none,
        traceId := none }).deadlineAtMs = 100 + 60000 :=
  ⟨(envelope_defaulting ⟨none, none, none, none⟩ false 100 1
      { method := "GET", url := "u", headers := none, body := none,
        timeoutMs := none, tenantId := some "acme", workspaceId := none,
        traceId := none }).2.1 "acme" rfl (by decide),
   (envelope_defaulting ⟨none, none, none, none⟩ false 100 1
      { method := "GET", url := "u", headers := none, body := none,
        timeoutMs := none, tenantId := some "acme", workspaceId := none,
        traceId := none }).2.2.2.2.1 (Or.inl rfl)⟩

/-! Exactly-once completion counting. -/

theorem completionIds_dispatchOnly (s : ClientState) (D : List (List Nat)) :
    completionIds { s with dispatched := D } = completionIds s := rfl

theorem count_afterTimer (s : ClientState) (id : Nat) (hmem : id ∈ s.pending)
    (hno : id ∉ completionIds s) :
    (completionIds (timerFire id s)).count id = 1 := by
  rw [timerFire_hit id s hmem]
  have hc : completionIds
      { s with pending := mapDelete s.pending id,
               completions := s.completions ++
                 [Outcome.rejected
                   { message := "Request timeout", errorClass := ErrorClass.Timeout,
                     requestId := id }] } =
      completionIds s ++ [id] := by
    simp [completionIds, Outcome.requestId]
  rw [hc, List.count_append, List.count_eq_zero.mpr hno]
  simp

theorem count_afterResponse (dec : List Nat → ExecuteResponse)
    (parse : List Nat → Option ParsedHTTP) (payload : List Nat) (s : ClientState)
    (hmem : (dec payload).requestId ∈ s.pending)
    (hno : (dec payload).requestId ∉ completionIds s) :
    (completionIds (processFrame dec parse (1 :: payload) s)).count
      ((dec payload).requestId) = 1 := by
  rw [processFrame_hit dec parse payload s hmem]
  have hc : completionIds
      { s with dispatched := s.dispatched ++ [1 :: payload],
               pending := mapDelete s.pending ((dec payload).requestId),
               completions := s.completions ++ [responseOutcome dec parse payload] } =
      completionIds s ++ [(dec payload).requestId] := by
    simp [completionIds, responseOutcome_requestId]
  rw [hc, List.count_append, List.count_eq_zero.mpr hno]
  simp

/-- C1 (confirmed): over any event sequence — executeHTTP calls, data chunks,
deadline-timer callbacks, socket errors and closures — the pending map never holds
two entries with the same request id, each request id receives at most one
caller-facing completion, a registered id has not yet been completed, and when a
deadline timeout and a matching response frame race on a pending id, either order
delivers exactly one completion. -/
theorem exactly_once_resolution :
    ∀ (dec : List Nat → ExecuteResponse) (parse : List Nat → Option ParsedHTTP)
      (seed : Nat) (evs : List Event),
      (run dec parse (initState seed) evs).pending.Nodup ∧
      (completionIds (run dec parse (initState seed) evs)).Nodup ∧
      (∀ id ∈ (run dec parse (initState seed) evs).pending,
        id ∉ completionIds (run dec parse (initState seed) evs)) ∧
      (∀ id ∈ (run dec parse (initState seed) evs).pending,
        (completionIds (timerFire id (run dec parse (initState seed) evs))).count id = 1) ∧
      (∀ payload,
        (dec payload).requestId ∈ (run dec parse (initState seed) evs).pending →
        (completionIds (processFrame dec parse (1 :: payload)
            (run dec parse (initState seed) evs))).count ((dec payload).requestId) = 1) ∧
      (∀ id payload, id ∈ (run dec parse (initState seed) evs).pending →
        (dec payload).requestId = id →
        (completionIds (processFrame dec parse (1 :: payload)
            (timerFire id (run dec parse (initState seed) evs)))).count id = 1 ∧
        (completionIds (timerFire id (processFrame dec parse (1 :: payload)
            (run dec parse (initState seed) evs)))).count id = 1) := by
  intro dec parse seed evs
  obtain ⟨h1, h2, h3, h4, h5⟩ :=
    run_Inv dec parse evs (initState seed) (Inv_initState seed)
  refine ⟨h1, h3, h5, ?_, ?_, ?_⟩
  · intro id hid
    exact count_afterTimer _ id hid (h5 id hid)
  · intro payload hmem
    exact count_afterResponse dec parse payload _ hmem (h5 _ hmem)
  · intro id payload hmem hre
    have hmem' : (dec payload).requestId ∈
        (run dec parse (initState seed) evs).pending := by rw [hre]; exact hmem
    constructor
    · -- the deadline fires first; the late response is then dropped
      have hgone : (dec payload).requestId ∉
          (timerFire id (run dec parse (initState seed) evs)).pending := by
        rw [timerFire_hit id _ hmem, hre]
        show id ∉ mapDelete _ id
        intro hc
        exact ((mem_mapDelete _ _ _).mp hc).2 rfl
      rw [processFrame_miss dec parse payload _ hgone, completionIds_dispatchOnly]
      exact count_afterTimer _ id hmem (h5 id hmem)
    · -- the response arrives first; the cleared timer then does nothing
      have hgone2 : id ∉
          (processFrame dec parse (1 :: payload)
            (run dec parse (initState seed) evs)).pending := by
        rw [processFrame_hit dec parse payload _ hmem']
        show id ∉ mapDelete _ ((dec payload).requestId)
        rw [hre]
        intro hc
        exact ((mem_mapDelete _ _ _).mp hc).2 rfl
      rw [timerFire_miss id _ hgone2]
      have hcnt := count_afterResponse dec parse payload _ hmem' (h5 _ hmem')
      rw [hre] at hcnt
      exact hcnt

/-- C1 witness: after one executeHTTP event from seed 0, request 1 is pending, and
a deadline timeout followed by a late matching response still delivers exactly one
completion for id 1. -/
theorem exactly_once_resolution_check :
    1 ∈ (run decStub parseStub (initState 0) [Event.execute 5000]).pending ∧
    (completionIds (processFrame decStub parseStub (1 :: [1])
        (timerFire 1 (run decStub parseStub (initState 0) [Event.execute 5000])))).count 1
      = 1 :=
  ⟨by decide,
   ((exactly_once_resolution decStub parseStub 0 [Event.execute 5000]).2.2.2.2.2
      1 [1] (by decide) (by decide)).1⟩

/-- C2 counterexample: a payload of exactly MAX_PAYLOAD_SIZE bytes fails the round
trip, because its declared frame length is MAX_PAYLOAD_SIZE + 1 and the decoder
aborts instead of dispatching the frame: feeding the encoded frame dispatches
nothing. -/
theorem frame_boundary_refuted :
    ¬ ((feedChunks decStub parseStub
          [sendFrame 1 (List.replicate MAX_PAYLOAD_SIZE 0)] (initState 0)).dispatched =
        [1 :: List.replicate MAX_PAYLOAD_SIZE 0]) := by
  intro hcontra
  have h4 : 4 ≤ ((initState 0).receiveBuffer ++
      sendFrame 1 (List.replicate MAX_PAYLOAD_SIZE 0)).length := by
    show 4 ≤ ([] ++ sendFrame 1 (List.replicate MAX_PAYLOAD_SIZE 0)).length
    rw [List.nil_append, length_sendFrame]
    omega
  have hmax : MAX_PAYLOAD_SIZE < readUInt32BE ((initState 0).receiveBuffer ++
      sendFrame 1 (List.replicate MAX_PAYLOAD_SIZE 0)) := by
    have hr : readUInt32BE (sendFrame 1 (List.replicate MAX_PAYLOAD_SIZE 0) ++ []) =
        1 + (List.replicate MAX_PAYLOAD_SIZE 0).length :=
      readUInt32BE_sendFrame 1 _ []
        (by rw [List.length_replicate]; have hmx : MAX_PAYLOAD_SIZE = 10485760 := rfl; omega)
    rw [List.append_nil] at hr
    show MAX_PAYLOAD_SIZE <
      readUInt32BE ([] ++ sendFrame 1 (List.replicate MAX_PAYLOAD_SIZE 0))
    rw [List.nil_append, hr, List.length_replicate]
    omega
  rw [feedChunks_cons, feedChunks_nil, handleData_eq,
    drainFrames_error decStub parseStub _ _ h4 hmax] at hcontra
  simp [handleError, initState] at hcontra

/-- C2 amended: `sendFrame` emits the single contiguous buffer
`[4-byte BE length = 1 + len(payload)][1-byte messageType][payload]`, and for any
frame sequence whose declared lengths fit the protocol maximum
(`1 + len(payload) ≤ MAX_PAYLOAD_SIZE`, i.e. payloads of at most 10 MiB − 1 bytes,
zero-length payloads included), feeding the concatenated bytes to the decoder split
at arbitrary chunk boundaries dispatches exactly the original frames, in order,
with the original message types and payloads, leaving an empty buffer. -/
theorem frame_roundtrip_chunked :
    (∀ (t : Nat) (p : List Nat),
      (sendFrame t p).length = 5 + p.length ∧
      (sendFrame t p).take 4 = writeUInt32BE (1 + p.length) ∧
      (sendFrame t p).drop 4 = t :: p ∧
      (1 + p.length ≤ MAX_PAYLOAD_SIZE → readUInt32BE (sendFrame t p) = 1 + p.length)) ∧
    (∀ (dec : List Nat → ExecuteResponse) (parse : List Nat → Option ParsedHTTP)
        (frames : List (Nat × List Nat)) (chunks : List (List Nat)) (seed : Nat),
      (∀ f ∈ frames, 1 + f.2.length ≤ MAX_PAYLOAD_SIZE) →
      chunks.flatten = encodeFrames frames →
      (feedChunks dec parse chunks (initState seed)).dispatched =
        frames.map (fun f => f.1 :: f.2) ∧
      (feedChunks dec parse chunks (initState seed)).receiveBuffer = []) := by
  constructor
  · intro t p
    refine ⟨length_sendFrame t p, ?_, ?_, ?_⟩
    · show (writeUInt32BE (MESSAGE_TYPE_SIZE + p.length) ++ (t :: p)).take 4 = _
      rw [show (4 : Nat) = (writeUInt32BE (MESSAGE_TYPE_SIZE + p.length)).length from rfl,
        List.take_left]
      rfl
    · show (writeUInt32BE (MESSAGE_TYPE_SIZE + p.length) ++ (t :: p)).drop 4 = t :: p
      rw [show (4 : Nat) = (writeUInt32BE (MESSAGE_TYPE_SIZE + p.length)).length from rfl,
        List.drop_left]
    · intro h
      have hr := readUInt32BE_sendFrame t p []
        (by have hmx : MAX_PAYLOAD_SIZE = 10485760 := rfl; omega)
      rw [List.append_nil] at hr
      exact hr
  · intro dec parse frames chunks seed hok hjoin
    have hstall : stalls (initState seed).receiveBuffer frames := by
      cases frames with
      | nil => show (initState seed).receiveBuffer = []; rfl
      | cons f rest =>
        exact ⟨by show ([] : List Nat).length < 5 + f.2.length; simp,
          ⟨sendFrame f.1 f.2, by simp [initState]⟩⟩
    have hfeed := feedChunks_encoded dec parse chunks frames (initState seed) hok rfl
      (by show [] ++ chunks.flatten = encodeFrames frames; rw [List.nil_append]; exact hjoin)
      hstall
    rw [hfeed]
    constructor
    · show (processAll dec parse frames (initState seed)).dispatched = _
      rw [processAll_dispatched]
      rfl
    · rfl

/-- C2 witness: two frames — type 1 with payload [42] and type 0 with the empty
payload — fed one byte at a time are both dispatched, in order. -/
theorem frame_roundtrip_chunked_check :
    (feedChunks decStub parseStub
      [[0], [0], [0], [2], [1], [42], [0], [0], [0], [1], [0]]
      (initState 0)).dispatched = [[1, 42], [0]] :=
  (frame_roundtrip_chunked.2 decStub parseStub [(1, [42]), (0, [])]
    [[0], [0], [0], [2], [1], [42], [0], [0], [0], [1], [0]] 0
    (by decide) (by decide)).1

end Vastar
